import Mathlib

/-!
Verification of the raffle bot core (src/main.rs) against its specification.

Rust string values (reward codes, message text, reply text) are modelled as
lists of characters.  The codes and commands handled by the bot are ASCII,
where Rust byte length coincides with character count and the Unicode classes
char::is_uppercase / char::is_numeric coincide with ASCII uppercase / digit,
so Char.isUpper / Char.isDigit embed them faithfully on the inputs in scope.
-/

namespace RaffleBot

abbrev RStr := List Char

def str (s : String) : RStr := s.toList

/-- Rust str::split on a single separator character: always at least one
piece, an empty final piece when the input ends with the separator. -/
def splitAll (sep : Char) : RStr → List RStr
  | [] => [[]]
  | c :: cs =>
    if c = sep then [] :: splitAll sep cs
    else
      match splitAll sep cs with
      | [] => [[c]]
      | p :: ps => (c :: p) :: ps

/-- Rust str::split_terminator: like split, but a trailing empty piece is
dropped (the empty string yields no pieces at all). -/
def splitTerminator (sep : Char) (s : RStr) : List RStr :=
  let parts := splitAll sep s
  if parts.getLast? = some [] then parts.dropLast else parts

/-- Rust str::replace pattern -> empty string: removes every non-overlapping
occurrence of pat, scanning left to right.  (In main.rs pat is the constant
"#SecretCode ", hence nonempty.) -/
def replaceAll (pat : RStr) : RStr → RStr
  | [] => []
  | c :: cs =>
    if h : pat ≠ [] ∧ pat.isPrefixOf (c :: cs) = true then
      replaceAll pat ((c :: cs).drop pat.length)
    else
      c :: replaceAll pat cs
termination_by s => s.length
decreasing_by
  · have hp : 0 < pat.length := List.length_pos.mpr h.1
    simp only [List.length_drop, List.length_cons]
    omega
  · simp only [List.length_cons]
    omega

/-- Rust str::contains with a string pattern: needle occurs as a contiguous
substring of the haystack. -/
def containsSub (needle : RStr) : RStr → Bool
  | [] => needle.isEmpty
  | c :: cs => needle.isPrefixOf (c :: cs) || containsSub needle cs

/-- Rust char comparison (by Unicode scalar value). -/
def charLt (a b : Char) : Bool := decide (a < b)

/-- Rust String ordering: lexicographic by character, matching the byte
order BTreeSet of String uses (UTF-8 preserves scalar order). -/
def strLt : RStr → RStr → Bool
  | [], [] => false
  | [], _ :: _ => true
  | _ :: _, [] => false
  | a :: as, b :: bs => charLt a b || (a == b && strLt as bs)

def intLt (a b : Int) : Bool := decide (a < b)

/-- BTreeSet insertion on the sorted-list model: keeps the list strictly
sorted by lt, and inserting an element already present changes nothing. -/
def btInsert {α : Type} [DecidableEq α] (lt : α → α → Bool) (x : α) :
    List α → List α
  | [] => [x]
  | y :: ys =>
    if lt x y then x :: y :: ys
    else if x = y then y :: ys
    else y :: btInsert lt x ys

/-- The Store struct of main.rs (lines 41-46): both BTreeSets are modelled
as sorted duplicate-free lists, with i64 chat ids as Int. -/
structure Store where
  giftcards : List RStr
  participants : List Int
  secret_code : Option RStr
deriving DecidableEq, Repr

/-! ### Start-raffle parsing (main.rs lines 119-131) -/

def startMarker : RStr := str "#StartRaffle"

def secretMarker : RStr := str "#SecretCode"

/-- The marker plus one space, the pattern of the replace call on line 125. -/
def secretMarkerSp : RStr := str "#SecretCode "

/-- msg.split_terminator newline, skip(1): the lines after the marker line. -/
def raffleLines (msg : RStr) : List RStr := (splitTerminator '\n' msg).drop 1

/-- lines.next().filter(starts_with #SecretCode).map(replace "#SecretCode " "")
on lines 123-125: the probe consumes the first post-marker line whether or not
it carries the marker. -/
def parsedSecret (msg : RStr) : Option RStr :=
  (((splitTerminator '\n' msg).drop 1).head?.filter
      (fun code => secretMarker.isPrefixOf code)).map
    (fun code => replaceAll secretMarkerSp code)

/-- The lines the for-loop on line 126 ranges over: everything after the
marker line and after the line consumed by the secret-code probe. -/
def candidateLines (msg : RStr) : List RStr := (splitTerminator '\n' msg).drop 2

/-- The giftcard format check of line 127. -/
def validGiftcard (w : RStr) : Bool :=
  (w.all fun c => c.isUpper || c.isDigit) && decide (5 < w.length)

/-- Lines 119-131: clear giftcards, set secret_code from the probe, insert
every valid candidate line.  participants is not touched. -/
def startRaffle (st : Store) (msg : RStr) : Store :=
  { giftcards :=
      (candidateLines msg).foldl
        (fun acc word =>
          if validGiftcard word then btInsert strLt word acc else acc) [],
    participants := st.participants,
    secret_code := parsedSecret msg }

/-! ### Drawing executor: send_giftcards (main.rs lines 48-86) -/

/-- One outbound reply, the Response struct of the telegram layer. -/
structure Response where
  text : RStr
  chat_id : Int
  reply_to_message_id : Option Nat
deriving DecidableEq, Repr

/-- In-flight state of one drawing.  localGifts is the giftcard set of the
LOCAL clone taken on line 50 (the pop on line 54 hits only this clone);
durable is the persistent STORE; attempts and delivered are ghost logs
mirroring the eprintln calls, recording each (chat id, code) pairing for
which delivery was attempted resp. succeeded. -/
structure DrawState where
  localGifts : List RStr
  durable : Store
  attempts : List (Int × RStr)
  delivered : List (Int × RStr)
deriving DecidableEq, Repr

/-- One iteration of the for-loop on lines 53-83 for one drawn chat id:
pop the first code of the local clone (no-op when the clone is empty), try
delivery; on success remove the recipient from the DURABLE participants
(line 78); on failure only log.  deliverOk models the outcome of the two
timed sends. -/
def drawStep (deliverOk : Int → RStr → Bool) (s : DrawState)
    (chat_id : Int) : DrawState :=
  match s.localGifts with
  | [] => s
  | gc :: rest =>
    if deliverOk chat_id gc then
      { localGifts := rest,
        durable :=
          { s.durable with
              participants := s.durable.participants.erase chat_id },
        attempts := s.attempts ++ [(chat_id, gc)],
        delivered := s.delivered ++ [(chat_id, gc)] }
    else
      { localGifts := rest, durable := s.durable,
        attempts := s.attempts ++ [(chat_id, gc)],
        delivered := s.delivered }

/-- The whole for-loop, over the shuffled participant list. -/
def drawLoop (deliverOk : Int → RStr → Bool) (order : List Int)
    (s : DrawState) : DrawState :=
  order.foldl (drawStep deliverOk) s

/-- Line 50: the drawing starts from a clone of the durable store, with
empty ghost logs. -/
def initDraw (st : Store) : DrawState := ⟨st.giftcards, st, [], []⟩

/-- send_giftcards: run the loop over the shuffled order (a permutation of
the cloned participants), then unconditionally clear the durable
participants and giftcards (lines 84-85).  secret_code is left as is. -/
def send_giftcards (deliverOk : Int → RStr → Bool) (order : List Int)
    (st : Store) : Store :=
  let fin := drawLoop deliverOk order (initDraw st)
  { fin.durable with participants := [], giftcards := [] }

/-! ### Message handler: telegram_msg_handler (main.rs lines 105-178) -/

/-- An inbound update, with the four fields the handler reads; each is
optional in the underlying JSON. -/
structure Message where
  text : Option RStr
  chatType : Option RStr
  username : Option RStr
  chatId : Option Int
deriving DecidableEq, Repr

def noRaffleText : RStr :=
  str "Sorry! There\x27s no ongoing raffle at the moment. Watch out for future raffles in our user group!"

def wrongCodeText : RStr :=
  str "⛔ Incorrect secret code! Please provide the correct code to enter the raffle 🔑"

def enteredText : RStr :=
  str "🎉 Yay! You\x27ve been entered into the raffle!"

/-- to_response (lines 170-178): build the single reply, failing when the
update carries no chat id. -/
def to_response (text : RStr) (m : Message) : Except RStr (List Response) :=
  match m.chatId with
  | none => Except.error (str "could not get chat id")
  | some cid => Except.ok [⟨text, cid, none⟩]

/-- The participant-branch insertion (line 163). -/
def joinRaffle (chat_id : Int) (st : Store) : Store :=
  { st with participants := btInsert intLt chat_id st.participants }

/-- telegram_msg_handler, as a state transformer: the returned Store is the
durable STORE after the call (mutations survive a later response error, as
they do through the global AcidJson store), the Except the handler result.
deliverOk and order parameterize the send_giftcards call of the EndRaffle
branch (delivery outcomes and shuffled snapshot). -/
def telegram_msg_handler (admin_uname : RStr)
    (deliverOk : Int → RStr → Bool) (order : List Int)
    (st : Store) (m : Message) : Store × Except RStr (List Response) :=
  match m.text with
  | none => (st, Except.error (str "cannot parse out text"))
  | some msg =>
    if m.chatType = some (str "private") then
      let username := m.username.getD []
      if username = admin_uname then
        if startMarker.isPrefixOf msg then
          (startRaffle st msg, to_response (str "Raffle started") m)
        else if msg = str "#EndRaffle" then
          (send_giftcards deliverOk order st,
           to_response (str "Horray! We gave out all the gift cards!") m)
        else if msg = str "#ParticipantsCount" then
          (st, to_response (str (toString st.participants.length)) m)
        else if msg = str "#GiftcardsCount" then
          (st, to_response (str (toString st.giftcards.length)) m)
        else (st, Except.error (str "not responding to this case"))
      else if st.giftcards = [] then
        (st, to_response noRaffleText m)
      else
        match m.chatId with
        | none => (st, Except.error (str "could not get chat id"))
        | some chat_id =>
          if (match st.secret_code with
              | some sc => !containsSub sc msg
              | none => false) then
            (st, to_response wrongCodeText m)
          else
            (joinRaffle chat_id st, to_response enteredText m)
    else (st, Except.error (str "not responding to this case"))

/-- Recipient-level checkpoint invariant of a drawing: the durable
participant set is duplicate-free and contains no chat id that has already
received its code. -/
def DrawInv (s : DrawState) : Prop :=
  s.durable.participants.Nodup ∧
  ∀ p ∈ s.delivered, p.1 ∉ s.durable.participants

/-! ### Lemmas about the set model -/

theorem mem_btInsert {α : Type} [DecidableEq α] (lt : α → α → Bool)
    (x a : α) (l : List α) : a ∈ btInsert lt x l ↔ a = x ∨ a ∈ l := by
  induction l with
  | nil => simp [btInsert]
  | cons y ys ih =>
    by_cases hlt : lt x y
    · simp [btInsert, hlt]
    · by_cases heq : x = y
      · subst heq
        simp [btInsert, hlt]
      · simp [btInsert, hlt, heq, ih]
        tauto

theorem btInsert_idem {α : Type} [DecidableEq α] (lt : α → α → Bool)
    (hirr : ∀ a : α, lt a a = false) (x : α) (l : List α) :
    btInsert lt x (btInsert lt x l) = btInsert lt x l := by
  induction l with
  | nil => simp [btInsert, hirr]
  | cons y ys ih =>
    by_cases hlt : lt x y
    · simp [btInsert, hlt, hirr]
    · by_cases heq : x = y
      · subst heq
        simp [btInsert, hlt]
      · simp [btInsert, hlt, heq, ih]

theorem intLt_irrefl (a : Int) : intLt a a = false := by
  simp [intLt]

theorem pairwise_btInsert (x : Int) (l : List Int)
    (h : l.Pairwise (· < ·)) :
    (btInsert intLt x l).Pairwise (· < ·) := by
  induction l with
  | nil => simp [btInsert]
  | cons y ys ih =>
    rw [List.pairwise_cons] at h
    obtain ⟨hy, hys⟩ := h
    by_cases hlt : intLt x y
    · have hxy : x < y := by simpa [intLt] using hlt
      have hbt : btInsert intLt x (y :: ys) = x :: y :: ys := by
        simp [btInsert, hlt]
      rw [hbt, List.pairwise_cons]
      refine ⟨?_, List.pairwise_cons.mpr ⟨hy, hys⟩⟩
      intro z hz
      rcases List.mem_cons.mp hz with rfl | hz
      · exact hxy
      · exact lt_trans hxy (hy z hz)
    · by_cases heq : x = y
      · rw [heq] at hlt ⊢
        have hbt : btInsert intLt y (y :: ys) = y :: ys := by
          simp [btInsert, hlt]
        rw [hbt]
        exact List.pairwise_cons.mpr ⟨hy, hys⟩
      · have hbt : btInsert intLt x (y :: ys) = y :: btInsert intLt x ys := by
          simp [btInsert, hlt, heq]
        rw [hbt, List.pairwise_cons]
        refine ⟨?_, ih hys⟩
        intro z hz
        rcases (mem_btInsert intLt x z ys).mp hz with hzx | hz
        · have hxy : ¬ x < y := by simpa [intLt] using hlt
          have hne : ¬ x = y := heq
          omega
        · exact hy z hz

theorem pairwise_join_foldl (joins : List Int) (start : Store)
    (h : start.participants.Pairwise (· < ·)) :
    (joins.foldl (fun s cid => joinRaffle cid s) start).participants.Pairwise
      (· < ·) := by
  induction joins generalizing start with
  | nil => simpa using h
  | cons c cs ih =>
    simp only [List.foldl_cons]
    exact ih (joinRaffle c start) (pairwise_btInsert c start.participants h)

theorem mem_insertValid_foldl (cands : List RStr) (acc : List RStr)
    (w : RStr) :
    w ∈ cands.foldl
        (fun acc word =>
          if validGiftcard word then btInsert strLt word acc else acc) acc ↔
      w ∈ acc ∨ (w ∈ cands ∧ validGiftcard w = true) := by
  induction cands generalizing acc with
  | nil => simp
  | cons c cs ih =>
    simp only [List.foldl_cons]
    rw [ih]
    by_cases hv : validGiftcard c
    · simp only [hv, if_true]
      constructor
      · rintro (hin | ⟨hcs, hval⟩)
        · rcases (mem_btInsert strLt c w acc).mp hin with hwc | hacc
          · exact Or.inr ⟨by simp [hwc], by rw [hwc]; exact hv⟩
          · exact Or.inl hacc
        · exact Or.inr ⟨List.mem_cons_of_mem c hcs, hval⟩
      · rintro (hacc | ⟨hmem, hval⟩)
        · exact Or.inl ((mem_btInsert strLt c w acc).mpr (Or.inr hacc))
        · rcases List.mem_cons.mp hmem with hwc | hcs
          · exact Or.inl ((mem_btInsert strLt c w acc).mpr (Or.inl hwc))
          · exact Or.inr ⟨hcs, hval⟩
    · simp only [hv, if_false]
      constructor
      · rintro (hacc | ⟨hcs, hval⟩)
        · exact Or.inl hacc
        · exact Or.inr ⟨List.mem_cons_of_mem c hcs, hval⟩
      · rintro (hacc | ⟨hmem, hval⟩)
        · exact Or.inl hacc
        · rcases List.mem_cons.mp hmem with hwc | hcs
          · rw [hwc] at hval
            exact absurd hval (by simpa using hv)
          · exact Or.inr ⟨hcs, hval⟩

theorem mem_startRaffle_giftcards (st : Store) (msg : RStr) (w : RStr) :
    w ∈ (startRaffle st msg).giftcards ↔
      w ∈ candidateLines msg ∧ validGiftcard w = true := by
  have hmem := mem_insertValid_foldl (candidateLines msg) [] w
  simpa [startRaffle] using hmem

/-! ### Lemmas about the drawing loop -/

theorem drawLoop_cons (deliverOk : Int → RStr → Bool) (c : Int)
    (order : List Int) (s : DrawState) :
    drawLoop deliverOk (c :: order) s =
      drawLoop deliverOk order (drawStep deliverOk s c) := rfl

theorem drawLoop_attempts (deliverOk : Int → RStr → Bool)
    (order : List Int) (s : DrawState) :
    (drawLoop deliverOk order s).attempts =
      s.attempts ++ order.zip s.localGifts := by
  induction order generalizing s with
  | nil => simp [drawLoop]
  | cons c rest ih =>
    rw [drawLoop_cons, ih]
    obtain ⟨g, dur, att, del⟩ := s
    cases g with
    | nil => simp [drawStep]
    | cons gc gs =>
      by_cases hd : deliverOk c gc
      · simp [drawStep, hd]
      · simp [drawStep, hd]

theorem drawStep_inv (deliverOk : Int → RStr → Bool) (s : DrawState)
    (c : Int) (h : DrawInv s) : DrawInv (drawStep deliverOk s c) := by
  obtain ⟨g, dur, att, del⟩ := s
  obtain ⟨hnd, hdel⟩ := h
  cases g with
  | nil => exact ⟨hnd, hdel⟩
  | cons gc gs =>
    by_cases hd : deliverOk c gc
    · have hstep : drawStep deliverOk ⟨gc :: gs, dur, att, del⟩ c =
          ⟨gs, { dur with participants := dur.participants.erase c },
           att ++ [(c, gc)], del ++ [(c, gc)]⟩ := by
        simp [drawStep, hd]
      rw [hstep]
      refine ⟨hnd.erase c, ?_⟩
      intro p hp
      rcases List.mem_append.mp hp with hp | hp
      · intro hmem
        exact hdel p hp (List.mem_of_mem_erase hmem)
      · have hpc : p = (c, gc) := by simpa using hp
        rw [hpc]
        intro hmem
        rcases (List.Nodup.mem_erase_iff hnd).mp hmem with ⟨hne, _⟩
        exact hne rfl
    · have hstep : drawStep deliverOk ⟨gc :: gs, dur, att, del⟩ c =
          ⟨gs, dur, att ++ [(c, gc)], del⟩ := by
        simp [drawStep, hd]
      rw [hstep]
      exact ⟨hnd, hdel⟩

theorem drawLoop_inv (deliverOk : Int → RStr → Bool) (order : List Int)
    (s : DrawState) (h : DrawInv s) : DrawInv (drawLoop deliverOk order s) := by
  induction order generalizing s with
  | nil => exact h
  | cons c rest ih => exact ih _ (drawStep_inv deliverOk s c h)

/-! ### Reduction of the handler on the admin start-raffle branch -/

theorem handler_startRaffle_eq (admin : RStr)
    (deliverOk : Int → RStr → Bool) (order : List Int)
    (st : Store) (m : Message) (msg : RStr)
    (hpriv : m.chatType = some (str "private"))
    (hadmin : m.username.getD [] = admin)
    (htext : m.text = some msg)
    (hstart : startMarker.isPrefixOf msg = true) :
    (telegram_msg_handler admin deliverOk order st m).1 = startRaffle st msg := by
  simp [telegram_msg_handler, htext, hpriv, hadmin, hstart]

/-! ### Claim theorems -/

/-- C5: for every sequence of join operations starting from a store whose
participant list satisfies the BTreeSet sorted invariant, the participants
contain no duplicate chat identifiers, and a second join by the same chat
identifier leaves the participant set exactly as it was after the first
join. -/
theorem join_idempotent_no_duplicates (start : Store)
    (hsorted : start.participants.Pairwise (· < ·))
    (joins : List Int) (c : Int) (st : Store) :
    (joins.foldl (fun s cid => joinRaffle cid s) start).participants.Nodup ∧
    joinRaffle c (joinRaffle c st) = joinRaffle c st := by
  constructor
  · exact (pairwise_join_foldl joins start hsorted).imp fun hab => ne_of_lt hab
  · simp [joinRaffle, btInsert_idem intLt intLt_irrefl]

theorem join_idempotent_no_duplicates_witness :
    (([5, 3, 5, 3] : List Int).foldl (fun s cid => joinRaffle cid s)
        ⟨[], [], none⟩).participants.Nodup ∧
    joinRaffle 7 (joinRaffle 7 ⟨[], [], none⟩) = joinRaffle 7 ⟨[], [], none⟩ :=
  join_idempotent_no_duplicates ⟨[], [], none⟩ (by simp) [5, 3, 5, 3] 7
    ⟨[], [], none⟩

/-- C2: in a start-raffle message, a candidate reward-code line is inserted
into giftcards iff every character is an uppercase letter or a digit and
the line length is strictly greater than 5; ABCDEF passes the format check
while ABC12 and abcdef fail it. -/
theorem giftcard_line_validation (st : Store) (msg : RStr) (w : RStr)
    (hw : w ∈ candidateLines msg) :
    (w ∈ (startRaffle st msg).giftcards ↔ validGiftcard w = true) ∧
    validGiftcard (str "ABCDEF") = true ∧
    validGiftcard (str "ABC12") = false ∧
    validGiftcard (str "abcdef") = false := by
  refine ⟨?_, by decide, by decide, by decide⟩
  rw [mem_startRaffle_giftcards]
  exact ⟨fun h => h.2, fun h => ⟨hw, h⟩⟩

theorem giftcard_line_validation_witness :
    (str "ABCDEF" ∈ (startRaffle ⟨[], [], none⟩
        (str "#StartRaffle\nsecret\nABCDEF")).giftcards ↔
      validGiftcard (str "ABCDEF") = true) ∧
    validGiftcard (str "ABCDEF") = true ∧
    validGiftcard (str "ABC12") = false ∧
    validGiftcard (str "abcdef") = false :=
  giftcard_line_validation ⟨[], [], none⟩
    (str "#StartRaffle\nsecret\nABCDEF") (str "ABCDEF") (by decide)

/-- C4: a start-raffle message fully replaces giftcards and secret_code:
the resulting giftcards are exactly the valid candidate codes of the new
message, a characterization independent of the prior state, and the
resulting secret_code is exactly the one the new message supplies (absent
when none is supplied). -/
theorem start_raffle_full_replacement (admin : RStr)
    (deliverOk : Int → RStr → Bool) (order : List Int)
    (st : Store) (m : Message) (msg : RStr)
    (hpriv : m.chatType = some (str "private"))
    (hadmin : m.username.getD [] = admin)
    (htext : m.text = some msg)
    (hstart : startMarker.isPrefixOf msg = true) :
    (∀ w, w ∈ (telegram_msg_handler admin deliverOk order st m).1.giftcards ↔
        w ∈ candidateLines msg ∧ validGiftcard w = true) ∧
    (telegram_msg_handler admin deliverOk order st m).1.secret_code =
      parsedSecret msg := by
  rw [handler_startRaffle_eq admin deliverOk order st m msg hpriv hadmin
    htext hstart]
  exact ⟨fun w => mem_startRaffle_giftcards st msg w, rfl⟩

theorem start_raffle_full_replacement_witness :
    (∀ w, w ∈ (telegram_msg_handler (str "admin") (fun _ _ => true) []
        ⟨[str "OLD111"], [9], some (str "OLDSEC")⟩
        ⟨some (str "#StartRaffle\n#SecretCode GOLD\nABCDEF"),
         some (str "private"), some (str "admin"), some 7⟩).1.giftcards ↔
      w ∈ candidateLines (str "#StartRaffle\n#SecretCode GOLD\nABCDEF") ∧
        validGiftcard w = true) ∧
    (telegram_msg_handler (str "admin") (fun _ _ => true) []
        ⟨[str "OLD111"], [9], some (str "OLDSEC")⟩
        ⟨some (str "#StartRaffle\n#SecretCode GOLD\nABCDEF"),
         some (str "private"), some (str "admin"), some 7⟩).1.secret_code =
      parsedSecret (str "#StartRaffle\n#SecretCode GOLD\nABCDEF") :=
  start_raffle_full_replacement (str "admin") (fun _ _ => true) []
    ⟨[str "OLD111"], [9], some (str "OLDSEC")⟩
    ⟨some (str "#StartRaffle\n#SecretCode GOLD\nABCDEF"),
     some (str "private"), some (str "admin"), some 7⟩
    (str "#StartRaffle\n#SecretCode GOLD\nABCDEF")
    rfl rfl rfl (by decide)

/-- C10: processing a start-raffle command leaves the participants set
unchanged, so participants of an earlier raffle that was never ended carry
over: the command clears only giftcards and replaces secret_code. -/
theorem start_raffle_preserves_participants (admin : RStr)
    (deliverOk : Int → RStr → Bool) (order : List Int)
    (st : Store) (m : Message) (msg : RStr)
    (hpriv : m.chatType = some (str "private"))
    (hadmin : m.username.getD [] = admin)
    (htext : m.text = some msg)
    (hstart : startMarker.isPrefixOf msg = true) :
    (telegram_msg_handler admin deliverOk order st m).1.participants =
      st.participants := by
  rw [handler_startRaffle_eq admin deliverOk order st m msg hpriv hadmin
    htext hstart]
  rfl

theorem start_raffle_preserves_participants_witness :
    (telegram_msg_handler (str "admin") (fun _ _ => true) []
        ⟨[], [4, 8], none⟩
        ⟨some (str "#StartRaffle\nABCDEF\nZZ9999"), some (str "private"),
         some (str "admin"), some 7⟩).1.participants = [4, 8] :=
  start_raffle_preserves_participants (str "admin") (fun _ _ => true) []
    ⟨[], [4, 8], none⟩
    ⟨some (str "#StartRaffle\nABCDEF\nZZ9999"), some (str "private"),
     some (str "admin"), some 7⟩
    (str "#StartRaffle\nABCDEF\nZZ9999") rfl rfl rfl (by decide)

/-- C3 as stated is false: in the start-raffle message whose only line
after the marker is ABCDEF, that line does not begin with the secret-code
marker, yet it is not treated as a candidate reward code: it passes the
format check but is absent from the resulting giftcards, because the
secret-code probe on line 123 consumed it. -/
theorem first_line_not_candidate_cex :
    validGiftcard (str "ABCDEF") = true ∧
    (startRaffle ⟨[], [], none⟩ (str "#StartRaffle\nABCDEF")).giftcards =
      [] ∧
    (startRaffle ⟨[], [], none⟩ (str "#StartRaffle\nABCDEF")).secret_code =
      none := by
  refine ⟨by decide, by decide, by decide⟩

/-- C3 corrected: the first line after the marker line is consumed by the
secret-code probe whether or not it starts with the marker.  When it does,
secret_code is set to that line with every occurrence of marker-plus-space
removed (no trimming); when it does not, secret_code becomes absent and the
line is discarded.  In both cases exactly the lines after it are the
candidate reward codes. -/
theorem first_line_always_consumed (st : Store) (msg : RStr)
    (first : RStr) (rest : List RStr)
    (h : raffleLines msg = first :: rest) :
    candidateLines msg = rest ∧
    (secretMarker.isPrefixOf first = true →
      (startRaffle st msg).secret_code =
        some (replaceAll secretMarkerSp first)) ∧
    (secretMarker.isPrefixOf first = false →
      (startRaffle st msg).secret_code = none) ∧
    (∀ w, w ∈ (startRaffle st msg).giftcards ↔
      w ∈ rest ∧ validGiftcard w = true) := by
  have hsplit : (splitTerminator '\n' msg).drop 1 = first :: rest := h
  have hdrop : candidateLines msg = rest := by
    have h2 : candidateLines msg =
        ((splitTerminator '\n' msg).drop 1).drop 1 := by
      simp [candidateLines, List.drop_drop]
    rw [h2, hsplit]
    rfl
  have hh : ((splitTerminator '\n' msg).drop 1).head? = some first := by
    rw [hsplit]
    rfl
  have hsc : (startRaffle st msg).secret_code = parsedSecret msg := rfl
  refine ⟨hdrop, ?_, ?_, ?_⟩
  · intro hm
    rw [hsc]
    unfold parsedSecret
    rw [hh]
    simp [Option.filter, hm]
  · intro hm
    rw [hsc]
    unfold parsedSecret
    rw [hh]
    simp [Option.filter, hm]
  · intro w
    rw [mem_startRaffle_giftcards, hdrop]

theorem first_line_always_consumed_witness :
    candidateLines (str "#StartRaffle\n#SecretCode GOLD\nABCDEF") =
      [str "ABCDEF"] ∧
    (startRaffle ⟨[], [], none⟩
        (str "#StartRaffle\n#SecretCode GOLD\nABCDEF")).secret_code =
      some (replaceAll secretMarkerSp (str "#SecretCode GOLD")) := by
  have h := first_line_always_consumed ⟨[], [], none⟩
    (str "#StartRaffle\n#SecretCode GOLD\nABCDEF")
    (str "#SecretCode GOLD") [str "ABCDEF"] (by decide)
  exact ⟨h.1, h.2.1 (by decide)⟩

/-- C7: a drawing attempts delivery for exactly
min(number of participants, number of giftcards) drawn chat ids, and the
drawing always closes the raffle: afterward both durable sets are empty,
whatever the delivery outcomes. -/
theorem drawing_attempt_count_and_close (deliverOk : Int → RStr → Bool)
    (order : List Int) (st : Store) (hperm : order.Perm st.participants) :
    (drawLoop deliverOk order (initDraw st)).attempts.length =
      min st.participants.length st.giftcards.length ∧
    (send_giftcards deliverOk order st).participants = [] ∧
    (send_giftcards deliverOk order st).giftcards = [] := by
  refine ⟨?_, rfl, rfl⟩
  rw [drawLoop_attempts]
  simp [initDraw, List.length_zip, hperm.length_eq]

theorem drawing_attempt_count_and_close_witness :
    (drawLoop (fun _ _ => true) [2, 3, 1]
        (initDraw ⟨[str "AAAAAA", str "BBBBBB"], [1, 2, 3],
          none⟩)).attempts.length = 2 ∧
    (send_giftcards (fun _ _ => true) [2, 3, 1]
        ⟨[str "AAAAAA", str "BBBBBB"], [1, 2, 3], none⟩).participants = [] ∧
    (send_giftcards (fun _ _ => true) [2, 3, 1]
        ⟨[str "AAAAAA", str "BBBBBB"], [1, 2, 3], none⟩).giftcards = [] := by
  have h := drawing_attempt_count_and_close (fun _ _ => true) [2, 3, 1]
    ⟨[str "AAAAAA", str "BBBBBB"], [1, 2, 3], none⟩ (by decide)
  exact ⟨by simpa using h.1, h.2.1, h.2.2⟩

/-- C8: when delivery to a drawn participant fails, the durable store is
untouched by that iteration (in particular the participant stays in the
durable participants set), the popped code is not returned to the pool
being drawn from, and the loop continues with the remaining drawn
participants instead of aborting. -/
theorem delivery_failure_keeps_going (deliverOk : Int → RStr → Bool)
    (s : DrawState) (c : Int) (gc : RStr) (rest : List RStr)
    (order : List Int)
    (hg : s.localGifts = gc :: rest) (hfail : deliverOk c gc = false)
    (hnd : s.localGifts.Nodup) :
    (drawStep deliverOk s c).durable = s.durable ∧
    (c ∈ s.durable.participants →
      c ∈ (drawStep deliverOk s c).durable.participants) ∧
    (drawStep deliverOk s c).localGifts = rest ∧
    gc ∉ (drawStep deliverOk s c).localGifts ∧
    drawLoop deliverOk (c :: order) s =
      drawLoop deliverOk order (drawStep deliverOk s c) := by
  obtain ⟨g, dur, att, del⟩ := s
  have hg2 : g = gc :: rest := hg
  subst hg2
  have hstep : drawStep deliverOk ⟨gc :: rest, dur, att, del⟩ c =
      ⟨rest, dur, att ++ [(c, gc)], del⟩ := by
    simp [drawStep, hfail]
  rw [drawLoop_cons, hstep]
  refine ⟨rfl, fun hc => hc, rfl, ?_, rfl⟩
  have hnotin : gc ∉ rest := (List.nodup_cons.mp (by simpa using hnd)).1
  simpa using hnotin

theorem delivery_failure_keeps_going_witness :
    (drawStep (fun _ _ => false)
        ⟨[str "AAAAAA", str "BBBBBB"],
         ⟨[str "AAAAAA", str "BBBBBB"], [1, 2], none⟩, [], []⟩
        1).durable = ⟨[str "AAAAAA", str "BBBBBB"], [1, 2], none⟩ ∧
    str "AAAAAA" ∉ (drawStep (fun _ _ => false)
        ⟨[str "AAAAAA", str "BBBBBB"],
         ⟨[str "AAAAAA", str "BBBBBB"], [1, 2], none⟩, [], []⟩
        1).localGifts := by
  have h := delivery_failure_keeps_going (fun _ _ => false)
    ⟨[str "AAAAAA", str "BBBBBB"],
     ⟨[str "AAAAAA", str "BBBBBB"], [1, 2], none⟩, [], []⟩
    1 (str "AAAAAA") [str "BBBBBB"] [2] rfl rfl (by decide)
  exact ⟨h.1, h.2.2.2.1⟩

/-- C1 as stated is false: starting from two giftcards AAAAAA and BBBBBB
and participants 1 and 2, after the first successful delivery (AAAAAA to
chat 1) the delivered code is still present in the durable giftcards pool
(only the local clone was popped), and a crash at this prefix followed by a
re-run of the drawing delivers the very same code AAAAAA again, to chat 2. -/
theorem delivered_code_still_durable_cex :
    (drawLoop (fun _ _ => true) (([1, 2] : List Int).take 1)
        (initDraw ⟨[str "AAAAAA", str "BBBBBB"], [1, 2], none⟩)).delivered =
      [(1, str "AAAAAA")] ∧
    str "AAAAAA" ∈ (drawLoop (fun _ _ => true) (([1, 2] : List Int).take 1)
        (initDraw ⟨[str "AAAAAA", str "BBBBBB"], [1, 2],
          none⟩)).durable.giftcards ∧
    (drawLoop (fun _ _ => true) [2]
        (initDraw (drawLoop (fun _ _ => true) (([1, 2] : List Int).take 1)
          (initDraw ⟨[str "AAAAAA", str "BBBBBB"], [1, 2],
            none⟩)).durable)).delivered = [(2, str "AAAAAA")] := by
  refine ⟨by decide, by decide, by decide⟩

/-- C1 corrected: the incremental durable checkpoint is on participants
only.  After any prefix of the drawing, every recipient of a successful
delivery has been removed from the durable participants set, so re-running
the drawing from the crashed durable state (with any shuffle of the
remaining participants and any delivery outcomes) never attempts another
delivery to an already-served recipient.  The delivered code itself,
however, stays in the durable giftcards pool until the final clear, so a
re-run can hand the same code string to a different participant. -/
theorem crash_prefix_recipient_safety
    (deliverOk deliverOk2 : Int → RStr → Bool)
    (order order2 : List Int) (st : Store) (k : Nat)
    (hnd : st.participants.Nodup)
    (hord2 : order2.Perm
      ((drawLoop deliverOk (order.take k)
        (initDraw st)).durable.participants))
    (c : Int) (gc : RStr)
    (hdel : (c, gc) ∈
      (drawLoop deliverOk (order.take k) (initDraw st)).delivered) :
    c ∉ (drawLoop deliverOk (order.take k)
        (initDraw st)).durable.participants ∧
    ∀ gc2 : RStr, (c, gc2) ∉
      (drawLoop deliverOk2 order2
        (initDraw (drawLoop deliverOk (order.take k)
          (initDraw st)).durable)).attempts := by
  have hinv : DrawInv (drawLoop deliverOk (order.take k) (initDraw st)) :=
    drawLoop_inv deliverOk (order.take k) (initDraw st)
      ⟨hnd, by intro p hp; simp [initDraw] at hp⟩
  have hnotin := hinv.2 (c, gc) hdel
  refine ⟨hnotin, fun gc2 hp => ?_⟩
  rw [drawLoop_attempts] at hp
  simp only [initDraw, List.nil_append] at hp
  have hcmem : c ∈ order2 := (List.of_mem_zip hp).1
  exact hnotin (hord2.mem_iff.mp hcmem)

theorem crash_prefix_recipient_safety_witness :
    (1 : Int) ∉ (drawLoop (fun _ _ => true) (([1, 2] : List Int).take 1)
        (initDraw ⟨[str "AAAAAA", str "BBBBBB"], [1, 2],
          none⟩)).durable.participants ∧
    ∀ gc2 : RStr, ((1 : Int), gc2) ∉
      (drawLoop (fun _ _ => true) [2]
        (initDraw (drawLoop (fun _ _ => true) (([1, 2] : List Int).take 1)
          (initDraw ⟨[str "AAAAAA", str "BBBBBB"], [1, 2],
            none⟩)).durable)).attempts :=
  crash_prefix_recipient_safety (fun _ _ => true) (fun _ _ => true)
    [1, 2] [2] ⟨[str "AAAAAA", str "BBBBBB"], [1, 2], none⟩ 1
    (by decide) (by decide) 1 (str "AAAAAA") (by decide)

/-- C6: for a non-admin private message bearing text and a chat id: with no
giftcards the reply is the no-ongoing-raffle message and the state is
unchanged; with giftcards but a set secret code not contained in the text,
the reply is the incorrect-secret-code message and the state is unchanged;
otherwise the sender joins and the entered reply is produced.  With secret
code GOLD, the text "the code is GOLD" contains it and "silver" does not. -/
theorem participant_branch (admin : RStr) (deliverOk : Int → RStr → Bool)
    (order : List Int) (st : Store) (m : Message) (t : RStr) (cid : Int)
    (hpriv : m.chatType = some (str "private"))
    (hna : m.username.getD [] ≠ admin)
    (htext : m.text = some t) (hcid : m.chatId = some cid) :
    (st.giftcards = [] →
      telegram_msg_handler admin deliverOk order st m =
        (st, Except.ok [⟨noRaffleText, cid, none⟩])) ∧
    (∀ sc, st.giftcards ≠ [] → st.secret_code = some sc →
      containsSub sc t = false →
      telegram_msg_handler admin deliverOk order st m =
        (st, Except.ok [⟨wrongCodeText, cid, none⟩])) ∧
    (st.giftcards ≠ [] →
      (st.secret_code = none ∨
        ∃ sc, st.secret_code = some sc ∧ containsSub sc t = true) →
      telegram_msg_handler admin deliverOk order st m =
        (joinRaffle cid st, Except.ok [⟨enteredText, cid, none⟩])) ∧
    containsSub (str "GOLD") (str "the code is GOLD") = true ∧
    containsSub (str "GOLD") (str "silver") = false := by
  refine ⟨?_, ?_, ?_, by decide, by decide⟩
  · intro hempty
    simp [telegram_msg_handler, htext, hpriv, hna, hempty, to_response, hcid]
  · intro sc hne hsc hnc
    simp [telegram_msg_handler, htext, hpriv, hna, hne, hsc, hnc,
      to_response, hcid]
  · intro hne hok
    rcases hok with hnone | ⟨sc, hsc, hyes⟩
    · simp [telegram_msg_handler, htext, hpriv, hna, hne, hnone,
        to_response, hcid]
    · simp [telegram_msg_handler, htext, hpriv, hna, hne, hsc, hyes,
        to_response, hcid]

theorem participant_branch_witness :
    telegram_msg_handler (str "admin") (fun _ _ => true) []
        ⟨[str "AAAAAA"], [], some (str "GOLD")⟩
        ⟨some (str "the code is GOLD"), some (str "private"),
         some (str "bob"), some 5⟩ =
      (joinRaffle 5 ⟨[str "AAAAAA"], [], some (str "GOLD")⟩,
       Except.ok [⟨enteredText, 5, none⟩]) := by
  have h := participant_branch (str "admin") (fun _ _ => true) []
    ⟨[str "AAAAAA"], [], some (str "GOLD")⟩
    ⟨some (str "the code is GOLD"), some (str "private"),
     some (str "bob"), some 5⟩
    (str "the code is GOLD") 5 rfl (by decide) rfl rfl
  exact h.2.2.1 (by decide) (Or.inr ⟨str "GOLD", rfl, by decide⟩)

/-- C9 as stated is false: an inbound update outside a private chat that
carries no text is rejected by the text parse, which runs first, so the
failure is the missing-text error, not the not-applicable one (there is
still no reply and no state change). -/
theorem group_scope_not_applicable_cex :
    telegram_msg_handler (str "admin") (fun _ _ => true) [] ⟨[], [], none⟩
        ⟨none, some (str "group"), some (str "bob"), some 5⟩ =
      (⟨[], [], none⟩, Except.error (str "cannot parse out text")) ∧
    str "cannot parse out text" ≠ str "not responding to this case" := by
  refine ⟨rfl, by decide⟩

/-- C9 corrected: for an update outside a private chat the handler leaves
the state unchanged and produces no reply: when the update bears text it
fails with the not-applicable error, and when the text is missing it fails
with the missing-text parse error instead.  An admin private message whose
text matches no command likewise yields the not-applicable failure with no
reply and no state change. -/
theorem scope_and_unknown_command_ignored (admin : RStr)
    (deliverOk : Int → RStr → Bool) (order : List Int)
    (st : Store) (m : Message) (msg : RStr) :
    (m.chatType ≠ some (str "private") → m.text = some msg →
      telegram_msg_handler admin deliverOk order st m =
        (st, Except.error (str "not responding to this case"))) ∧
    (m.text = none →
      telegram_msg_handler admin deliverOk order st m =
        (st, Except.error (str "cannot parse out text"))) ∧
    (m.chatType = some (str "private") → m.text = some msg →
      m.username.getD [] = admin →
      startMarker.isPrefixOf msg = false →
      msg ≠ str "#EndRaffle" → msg ≠ str "#ParticipantsCount" →
      msg ≠ str "#GiftcardsCount" →
      telegram_msg_handler admin deliverOk order st m =
        (st, Except.error (str "not responding to this case"))) := by
  refine ⟨?_, ?_, ?_⟩
  · intro hscope htext
    simp [telegram_msg_handler, htext, hscope]
  · intro htext
    simp [telegram_msg_handler, htext]
  · intro hpriv htext hadmin h1 h2 h3 h4
    simp [telegram_msg_handler, htext, hpriv, hadmin, h1, h2, h3, h4]

theorem scope_and_unknown_command_ignored_witness :
    telegram_msg_handler (str "admin") (fun _ _ => true) [] ⟨[], [], none⟩
        ⟨some (str "hello"), some (str "group"), some (str "bob"),
         some 5⟩ =
      (⟨[], [], none⟩,
       Except.error (str "not responding to this case")) := by
  have h := scope_and_unknown_command_ignored (str "admin")
    (fun _ _ => true) [] ⟨[], [], none⟩
    ⟨some (str "hello"), some (str "group"), some (str "bob"), some 5⟩
    (str "hello")
  exact h.1 (by decide) rfl

end RaffleBot
